import Mathlib

/-!
Shallow embedding of `rest_framework/utils/field_mapping.py`.

The module maps Django ORM model-field metadata to keyword-argument
dictionaries for serializer-field constructors.  Python dictionaries are
embedded as association lists over `String` keys; model fields become a
record of the attributes the module inspects; validator objects become an
inductive taxonomy keeping the distinctions the module relies on
(isinstance checks and identity checks against the module-level
`validate_email` / `validate_slug` singletons).
-/

set_option autoImplicit false

namespace FieldMapping

/-! ### Python string primitives used by the module -/

/-- Django `capfirst`: uppercase the first character, keep the rest.
On an empty (falsy) string it returns the string unchanged. -/
def capfirst (s : String) : String :=
  match s.toList with
  | [] => s
  | c :: cs => String.mk (Char.toUpper c :: cs)

/-- Python `str.capitalize`: first character uppercased, the rest lowercased. -/
def pyCapitalize (s : String) : String :=
  match s.toList with
  | [] => s
  | c :: cs => String.mk (Char.toUpper c :: cs.map Char.toLower)

/-- Python `str.lower` (ASCII model, as for `capfirst`/`capitalize`). -/
def pyLower (s : String) : String :=
  String.mk (s.toList.map Char.toLower)

/-- Python `str.replace(old, new)` for single-character patterns; used by
`needs_label` as `field_name.replace(chr(95), chr(32))`. -/
def pyReplaceChar (s : String) (old new : Char) : String :=
  String.mk (s.toList.map (fun c => if c = old then new else c))

/-! ### Validators

`django.core.validators` classes and singletons the module filters on, plus
`rest_framework.validators.UniqueValidator`.  The `tag` payloads let two
distinct instances of one class exist, and `other` covers any validator
class the module does not treat specially. -/

inductive Validator where
  | maxLength (limit_value : Int)
  | minLength (limit_value : Int)
  | maxValue (limit_value : Int)
  | minValue (limit_value : Int)
  | urlValidator (tag : Nat)
  | validateEmail
  | validateSlug
  | uniqueValidator (queryset : String)
  | other (tag : Nat)
deriving Repr, DecidableEq

namespace Validator

/-- Embeds `isinstance(v, validators.MaxLengthValidator)` -/
def isMaxLength : Validator → Bool
  | maxLength _ => true
  | _ => false

/-- Embeds `isinstance(v, validators.MinLengthValidator)` -/
def isMinLength : Validator → Bool
  | minLength _ => true
  | _ => false

/-- Embeds `isinstance(v, validators.MaxValueValidator)` -/
def isMaxValue : Validator → Bool
  | maxValue _ => true
  | _ => false

/-- Embeds `isinstance(v, validators.MinValueValidator)` -/
def isMinValue : Validator → Bool
  | minValue _ => true
  | _ => false

/-- Embeds `isinstance(v, validators.URLValidator)` -/
def isURLValidator : Validator → Bool
  | urlValidator _ => true
  | _ => false

/-- Embeds `v.limit_value` for a `MinLengthValidator`, `None` otherwise; feeds the
`next(...)` generator expressions. -/
def minLengthLimit : Validator → Option Int
  | minLength l => some l
  | _ => none

/-- Embeds `v.limit_value` for a `MaxValueValidator`, `None` otherwise. -/
def maxValueLimit : Validator → Option Int
  | maxValue l => some l
  | _ => none

/-- Embeds `v.limit_value` for a `MinValueValidator`, `None` otherwise. -/
def minValueLimit : Validator → Option Int
  | minValue l => some l
  | _ => none

end Validator

/-! ### Model-field classes

The `django.db.models` field classes the module distinguishes with
`isinstance`.  `slugField`, `urlField` and `emailField` subclass
`CharField` in Django, so `isCharField` is true of them too; every other
field class the module does not name is `otherField`. -/

inductive FieldClass where
  | autoField
  | charField
  | slugField
  | urlField
  | emailField
  | textField
  | nullBooleanField
  | otherField
deriving Repr, DecidableEq

/-- Embeds `isinstance(model_field, models.AutoField)` -/
def isAutoField : FieldClass → Bool
  | FieldClass.autoField => true
  | _ => false

/-- Embeds `isinstance(model_field, models.CharField)`; Django `SlugField`,
`URLField` and `EmailField` are `CharField` subclasses. -/
def isCharField : FieldClass → Bool
  | FieldClass.charField => true
  | FieldClass.slugField => true
  | FieldClass.urlField => true
  | FieldClass.emailField => true
  | _ => false

/-- Embeds `isinstance(model_field, models.TextField)` -/
def isTextField : FieldClass → Bool
  | FieldClass.textField => true
  | _ => false

/-- Embeds `isinstance(model_field, models.NullBooleanField)` -/
def isNullBooleanField : FieldClass → Bool
  | FieldClass.nullBooleanField => true
  | _ => false

/-- Embeds `isinstance(model_field, models.URLField)` -/
def isURLField : FieldClass → Bool
  | FieldClass.urlField => true
  | _ => false

/-- Embeds `isinstance(model_field, models.EmailField)` -/
def isEmailField : FieldClass → Bool
  | FieldClass.emailField => true
  | _ => false

/-- Embeds `isinstance(model_field, models.SlugField)` -/
def isSlugField : FieldClass → Bool
  | FieldClass.slugField => true
  | _ => false

/-! ### Model fields and models -/

/-- The attributes of an ORM model field that `field_mapping.py` reads.
`max_digits`, `decimal_places` and `max_length` are `none` when the
attribute is absent (the `getattr(_, _, None)` calls); `has_default`
embeds the `has_default()` method result; `model` stands for the
`model_field.model._default_manager` reference used by `UniqueValidator`. -/
structure ModelField where
  fieldClass : FieldClass
  verbose_name : String
  help_text : String
  max_digits : Option Int
  decimal_places : Option Int
  editable : Bool
  has_default : Bool
  blank : Bool
  null : Bool
  flatchoices : List (String × String)
  max_length : Option Int
  validators : List Validator
  unique : Bool
  model : String
deriving Repr, DecidableEq

/-- A Django model class as seen by `get_detail_view_name` and
`get_relation_kwargs`: `_meta.app_label`, `_meta.object_name` and a token
for `_default_manager`. -/
structure DjangoModel where
  app_label : String
  object_name : String
  default_manager : String
deriving Repr, DecidableEq

/-! ### Keyword-argument dictionaries -/

/-- The values stored in the keyword-argument dictionaries the module
builds. -/
inductive KValue where
  | b (x : Bool)
  | s (x : String)
  | i (x : Int)
  | style (base_template : String)
  | choices (cs : List (String × String))
  | vals (vs : List Validator)
  | modelField (mf : ModelField)
  | queryset (manager : String)
deriving Repr, DecidableEq

/-- A Python dict embedded as an association list in insertion order. -/
abbrev KwDict : Type := List (String × KValue)

/-- Embeds `d[k]` as an option: the value at the first matching key. -/
def kwGet? : KwDict → String → Option KValue
  | [], _ => none
  | (k', v) :: rest, k => if k' = k then some v else kwGet? rest k

/-- Embeds `d[k] = v`: replace in place when the key is present, append otherwise
(Python dict assignment keeps the original insertion position). -/
def kwSet : KwDict → String → KValue → KwDict
  | [], k, v => [(k, v)]
  | (k', v') :: rest, k, v =>
      if k' = k then (k, v) :: rest else (k', v') :: kwSet rest k v

/-- Embeds `d.pop(k, None)`: drop the entries with key `k` (dict keys are unique,
so at most one is dropped). -/
def kwPop : KwDict → String → KwDict
  | [], _ => []
  | (k', v') :: rest, k =>
      if k' = k then kwPop rest k else (k', v') :: kwPop rest k

/-- Embeds `if cond: d[k] = v` -/
def kwSetIf (c : Bool) (d : KwDict) (k : String) (v : KValue) : KwDict :=
  if c then kwSet d k v else d

/-- Embeds `if o is not None: d[k] = o` for integer-valued attributes. -/
def kwSetOptInt (o : Option Int) (d : KwDict) (k : String) : KwDict :=
  match o with
  | some x => kwSet d k (KValue.i x)
  | none => d

/-- Embeds `k in d` -/
def kwContains (d : KwDict) (k : String) : Bool :=
  (kwGet? d k).isSome

/-- Python truthiness of a stored value, for `kwargs.get(k, False)` tests. -/
def kvTruthy : KValue → Bool
  | KValue.b x => x
  | KValue.s x => !x.isEmpty
  | KValue.i x => x != 0
  | KValue.style _ => true
  | KValue.choices cs => !cs.isEmpty
  | KValue.vals vs => !vs.isEmpty
  | KValue.modelField _ => true
  | KValue.queryset _ => true

/-- Embeds `kwargs.get("validators", [])`, used by the uniqueness branch of
`get_relation_kwargs`. -/
def kwGetValsD (d : KwDict) (k : String) : List Validator :=
  match kwGet? d k with
  | some (KValue.vals vs) => vs
  | _ => []

/-! ### ClassLookupDict -/

/-- A Python class as `inspect.getmro` sees it: its name and its method
resolution order (a list of class names that always starts with the class
itself and is therefore nonempty for any real class). -/
structure PyClass where
  name : String
  mro : List String
deriving Repr, DecidableEq

/-- An object handed to `ClassLookupDict.__getitem__`: its runtime class
and, when the `_proxy_class` attribute is present, the declared proxy
class. -/
structure LookupKey where
  cls : PyClass
  proxy_class : Option PyClass
deriving Repr, DecidableEq

/-- The errors `__getitem__` can raise: the `KeyError` built from the
unformatted message and the last MRO entry, and the `NameError` Python
would raise if the loop variable were never bound (empty MRO, impossible
for real classes). -/
inductive LookupError where
  | keyError (fmt : String) (clsName : String)
  | nameError
deriving Repr, DecidableEq

/-- The `for cls in inspect.getmro(base_class)` loop body of
`ClassLookupDict.__getitem__`; the accumulator carries the most recently
visited class name, which the final `KeyError` message uses. -/
def mroLoop {V : Type} (mapping : List (String × V)) :
    List String → Option String → Except LookupError V
  | [], none => Except.error LookupError.nameError
  | [], some last =>
      Except.error (LookupError.keyError "Class %s not found in lookup." last)
  | c :: rest, _ =>
      match mapping.lookup c with
      | some v => Except.ok v
      | none => mroLoop mapping rest (some c)

/-- Embeds `ClassLookupDict.__getitem__`: resolve through `_proxy_class` when
present, then walk the MRO of the base class. -/
def classLookupGetitem {V : Type} (mapping : List (String × V))
    (key : LookupKey) : Except LookupError V :=
  mroLoop mapping (key.proxy_class.getD key.cls).mro none

/-! ### needs_label and get_detail_view_name -/

/-- Embeds `needs_label(model_field, field_name)` -/
def needs_label (model_field : ModelField) (field_name : String) : Bool :=
  let default_label := pyCapitalize (pyReplaceChar field_name '_' ' ')
  capfirst model_field.verbose_name != default_label

/-- One pass of Python percent-formatting with a mapping
(`fmt % mapping`): scan for `%(name)s` placeholders and substitute the
mapping value.  The fuel is the length of the format string, enough since
every step consumes at least one character.  A missing key substitutes the
empty string (Python would raise `KeyError`; the module never formats with
a missing key). -/
def pyFormatAux (mapping : List (String × String)) :
    Nat → List Char → String
  | 0, _ => ""
  | _ + 1, [] => ""
  | fuel + 1, '%' :: '(' :: rest =>
      let nameChars := rest.takeWhile (fun c => c ≠ ')')
      match rest.dropWhile (fun c => c ≠ ')') with
      | ')' :: 's' :: rest2 =>
          ((mapping.lookup (String.mk nameChars)).getD "") ++
            pyFormatAux mapping fuel rest2
      | _ => "%(" ++ pyFormatAux mapping fuel rest
  | fuel + 1, c :: rest => String.singleton c ++ pyFormatAux mapping fuel rest

/-- Embeds `fmt % mapping` for named `%(...)s` placeholders. -/
def pyFormatMap (fmt : String) (mapping : List (String × String)) : String :=
  pyFormatAux mapping fmt.length fmt.toList

/-- Embeds `get_detail_view_name(model)`: the format string references only
`model_name`; `app_label` is supplied in the substitution dict but unused
by the format. -/
def get_detail_view_name (model : DjangoModel) : String :=
  pyFormatMap "%(model_name)s-detail"
    [("app_label", model.app_label),
     ("model_name", pyLower model.object_name)]

/-! ### The validator pipeline of get_field_kwargs

`validator_kwarg` starts as `list(model_field.validators)` and is rebound
by successive filters; each rebinding depends only on the model field and
the previous list, so the pipeline is factored into named stages that
`get_field_kwargs` threads through. -/

/-- Embeds `validator_kwarg` after the `max_length` extraction: `MaxLengthValidator`
instances are dropped exactly when `max_length` is not `None` and the field
is a `CharField`. -/
def vkAfterMaxLength (model_field : ModelField) : List Validator :=
  if model_field.max_length.isSome && isCharField model_field.fieldClass then
    model_field.validators.filter (fun v => !v.isMaxLength)
  else model_field.validators

/-- The `min_length` keyword argument: the `limit_value` of the first
`MinLengthValidator` remaining, if any. -/
def minLengthArg (model_field : ModelField) : Option Int :=
  (vkAfterMaxLength model_field).findSome? Validator.minLengthLimit

/-- Embeds `validator_kwarg` after the `min_length` extraction. -/
def vkAfterMinLength (model_field : ModelField) : List Validator :=
  if (minLengthArg model_field).isSome then
    (vkAfterMaxLength model_field).filter (fun v => !v.isMinLength)
  else vkAfterMaxLength model_field

/-- The `max_value` keyword argument. -/
def maxValueArg (model_field : ModelField) : Option Int :=
  (vkAfterMinLength model_field).findSome? Validator.maxValueLimit

/-- Embeds `validator_kwarg` after the `max_value` extraction. -/
def vkAfterMaxValue (model_field : ModelField) : List Validator :=
  if (maxValueArg model_field).isSome then
    (vkAfterMinLength model_field).filter (fun v => !v.isMaxValue)
  else vkAfterMinLength model_field

/-- The `min_value` keyword argument. -/
def minValueArg (model_field : ModelField) : Option Int :=
  (vkAfterMaxValue model_field).findSome? Validator.minValueLimit

/-- Embeds `validator_kwarg` after the `min_value` extraction. -/
def vkAfterMinValue (model_field : ModelField) : List Validator :=
  if (minValueArg model_field).isSome then
    (vkAfterMaxValue model_field).filter (fun v => !v.isMinValue)
  else vkAfterMaxValue model_field

/-- Embeds `validator_kwarg` after the URL / email / slug suppression: URL fields
drop `URLValidator` instances, email fields drop the `validate_email`
singleton, slug fields drop the `validate_slug` singleton. -/
def vkAfterTypeSuppression (model_field : ModelField) : List Validator :=
  let vk := vkAfterMinValue model_field
  let vk := if isURLField model_field.fieldClass then
      vk.filter (fun v => !v.isURLValidator)
    else vk
  let vk := if isEmailField model_field.fieldClass then
      vk.filter (fun v => v != Validator.validateEmail)
    else vk
  if isSlugField model_field.fieldClass then
    vk.filter (fun v => v != Validator.validateSlug)
  else vk

/-- The final `validator_kwarg`: a `UniqueValidator` over the default
manager is appended when the field is unique. -/
def finalValidators (model_field : ModelField) : List Validator :=
  if model_field.unique then
    vkAfterTypeSuppression model_field ++
      [Validator.uniqueValidator model_field.model]
  else vkAfterTypeSuppression model_field

/-! ### get_field_kwargs -/

/-- Embeds `get_field_kwargs(field_name, model_field)` -/
def get_field_kwargs (field_name : String) (model_field : ModelField) :
    KwDict :=
  let kwargs : KwDict := []
  let kwargs := kwSet kwargs "model_field" (KValue.modelField model_field)
  let kwargs := kwSetIf
    (model_field.verbose_name != "" && needs_label model_field field_name)
    kwargs "label" (KValue.s (capfirst model_field.verbose_name))
  let kwargs := kwSetIf (model_field.help_text != "") kwargs "help_text"
    (KValue.s model_field.help_text)
  let kwargs := kwSetOptInt model_field.max_digits kwargs "max_digits"
  let kwargs := kwSetOptInt model_field.decimal_places kwargs "decimal_places"
  let kwargs := kwSetIf (isTextField model_field.fieldClass) kwargs "style"
    (KValue.style "textarea.html")
  if isAutoField model_field.fieldClass || !model_field.editable then
    -- read-only: return early, further keyword arguments are not valid
    kwSet kwargs "read_only" (KValue.b true)
  else
  let kwargs := kwSetIf
    (model_field.has_default || model_field.blank || model_field.null)
    kwargs "required" (KValue.b false)
  let kwargs := kwSetIf
    (model_field.null && !isNullBooleanField model_field.fieldClass)
    kwargs "allow_null" (KValue.b true)
  let kwargs := kwSetIf model_field.blank kwargs "allow_blank" (KValue.b true)
  if !model_field.flatchoices.isEmpty then
    -- choices: return early, further keyword arguments are not valid
    kwSet kwargs "choices" (KValue.choices model_field.flatchoices)
  else
  let kwargs := kwSetIf
    (model_field.max_length.isSome && isCharField model_field.fieldClass)
    kwargs "max_length" (KValue.i (model_field.max_length.getD 0))
  let kwargs := kwSetOptInt (minLengthArg model_field) kwargs "min_length"
  let kwargs := kwSetOptInt (maxValueArg model_field) kwargs "max_value"
  let kwargs := kwSetOptInt (minValueArg model_field) kwargs "min_value"
  kwSetIf (!(finalValidators model_field).isEmpty) kwargs "validators"
    (KValue.vals (finalValidators model_field))

/-! ### get_relation_kwargs and the remaining helpers -/

/-- The `RelationInfo` tuple `(model_field, related_model, to_many,
has_through_model)`. -/
structure RelationInfo where
  model_field : Option ModelField
  related_model : DjangoModel
  to_many : Bool
  has_through_model : Bool
deriving Repr, DecidableEq

/-- Embeds `get_relation_kwargs(field_name, relation_info)`.  The parameter `cmh`
stands for `clean_manytomany_helptext` from `rest_framework.compat`, which
is outside this module; the theorems below hold for every such cleaning
function. -/
def get_relation_kwargs (cmh : String → String) (field_name : String)
    (relation_info : RelationInfo) : KwDict :=
  let kwargs : KwDict := []
  let kwargs := kwSet kwargs "queryset"
    (KValue.queryset relation_info.related_model.default_manager)
  let kwargs := kwSet kwargs "view_name"
    (KValue.s (get_detail_view_name relation_info.related_model))
  let kwargs := kwSetIf relation_info.to_many kwargs "many" (KValue.b true)
  let kwargs :=
    if relation_info.has_through_model then
      kwPop (kwSet kwargs "read_only" (KValue.b true)) "queryset"
    else kwargs
  match relation_info.model_field with
  | none => kwargs
  | some mf =>
    let kwargs := kwSetIf (mf.verbose_name != "" && needs_label mf field_name)
      kwargs "label" (KValue.s (capfirst mf.verbose_name))
    let help_text := cmh mf.help_text
    let kwargs := kwSetIf (help_text != "") kwargs "help_text"
      (KValue.s help_text)
    let kwargs :=
      if !mf.editable then
        kwPop (kwSet kwargs "read_only" (KValue.b true)) "queryset"
      else kwargs
    if kvTruthy ((kwGet? kwargs "read_only").getD (KValue.b false)) then
      -- read-only: return early, no further keyword arguments are valid
      kwargs
    else
    let kwargs := kwSetIf (mf.has_default || mf.null) kwargs "required"
      (KValue.b false)
    let kwargs := kwSetIf mf.null kwargs "allow_null" (KValue.b true)
    let kwargs := kwSetIf (!mf.validators.isEmpty) kwargs "validators"
      (KValue.vals mf.validators)
    if mf.unique then
      kwSet kwargs "validators"
        (KValue.vals (kwGetValsD kwargs "validators" ++
          [Validator.uniqueValidator mf.model]))
    else kwargs

/-- Embeds `get_nested_relation_kwargs(relation_info)` -/
def get_nested_relation_kwargs (relation_info : RelationInfo) : KwDict :=
  let kwargs := kwSet [] "read_only" (KValue.b true)
  kwSetIf relation_info.to_many kwargs "many" (KValue.b true)

/-- Embeds `get_url_kwargs(model_field)`: the argument is in fact a model class,
passed straight to `get_detail_view_name`. -/
def get_url_kwargs (model_field : DjangoModel) : KwDict :=
  kwSet [] "view_name" (KValue.s (get_detail_view_name model_field))

/-- A minimal editable model field, used to build concrete instances. -/
def sampleField : ModelField :=
  { fieldClass := FieldClass.otherField, verbose_name := "", help_text := "",
    max_digits := none, decimal_places := none, editable := true,
    has_default := false, blank := false, null := false, flatchoices := [],
    max_length := none, validators := [], unique := false, model := "m" }

/-- A sample related model for relation-kwargs instances. -/
def sampleModel : DjangoModel :=
  { app_label := "app", object_name := "Foo", default_manager := "mgr" }

/-! ### Dictionary lemmas -/

@[simp] theorem kwGet?_nil (k : String) : kwGet? [] k = none := rfl

@[simp] theorem kwGet?_set (d : KwDict) (k : String) (v : KValue) (k' : String) :
    kwGet? (kwSet d k v) k' = if k' = k then some v else kwGet? d k' := by
  induction d with
  | nil =>
      by_cases h : k' = k
      · subst h; simp [kwSet, kwGet?]
      · simp [kwSet, kwGet?, h, Ne.symm h]
  | cons p rest ih =>
      obtain ⟨a, b⟩ := p
      by_cases hak : a = k
      · subst hak
        by_cases h : k' = a
        · subst h; simp [kwSet, kwGet?]
        · simp [kwSet, kwGet?, h, Ne.symm h]
      · by_cases h : k' = a
        · subst h
          simp [kwSet, kwGet?, hak]
        · simp [kwSet, kwGet?, hak, Ne.symm h, ih]

@[simp] theorem kwGet?_pop (d : KwDict) (k k' : String) :
    kwGet? (kwPop d k) k' = if k' = k then none else kwGet? d k' := by
  induction d with
  | nil => simp [kwPop, kwGet?]
  | cons p rest ih =>
      obtain ⟨a, b⟩ := p
      by_cases hak : a = k
      · subst hak
        by_cases h : k' = a
        · subst h; simp [kwPop, ih]
        · simp [kwPop, kwGet?, h, Ne.symm h, ih]
      · by_cases h : k' = a
        · subst h
          simp [kwPop, kwGet?, hak]
        · simp [kwPop, kwGet?, hak, Ne.symm h, ih]

@[simp] theorem kwGet?_setIf (c : Bool) (d : KwDict) (k : String) (v : KValue)
    (k' : String) :
    kwGet? (kwSetIf c d k v) k' =
      if c ∧ k' = k then some v else kwGet? d k' := by
  cases c <;> simp [kwSetIf, kwGet?_set]

@[simp] theorem kwGet?_setOptInt_ne (o : Option Int) (d : KwDict)
    (k k' : String) (h : k' ≠ k) :
    kwGet? (kwSetOptInt o d k) k' = kwGet? d k' := by
  cases o <;> simp [kwSetOptInt, kwGet?_set, h]

theorem kwGet?_setOptInt_self (o : Option Int) (d : KwDict) (k : String)
    (hd : kwGet? d k = none) :
    kwGet? (kwSetOptInt o d k) k = o.map KValue.i := by
  cases o <;> simp [kwSetOptInt, kwGet?_set, hd]

theorem kwContains_set_elim (d : KwDict) (k : String) (v : KValue)
    (k' : String) (h : kwContains (kwSet d k v) k' = true) :
    k' = k ∨ kwContains d k' = true := by
  by_cases hk : k' = k
  · exact Or.inl hk
  · right
    simpa [kwContains, kwGet?_set, hk] using h

theorem kwContains_setIf_elim (c : Bool) (d : KwDict) (k : String)
    (v : KValue) (k' : String) (h : kwContains (kwSetIf c d k v) k' = true) :
    k' = k ∨ kwContains d k' = true := by
  cases c with
  | false => exact Or.inr (by simpa [kwSetIf] using h)
  | true => exact kwContains_set_elim d k v k' (by simpa [kwSetIf] using h)

theorem kwContains_setOptInt_elim (o : Option Int) (d : KwDict)
    (k k' : String) (h : kwContains (kwSetOptInt o d k) k' = true) :
    k' = k ∨ kwContains d k' = true := by
  cases o with
  | none => exact Or.inr (by simpa [kwSetOptInt] using h)
  | some x => exact kwContains_set_elim d k _ k' (by simpa [kwSetOptInt] using h)

/-! ### Validator-pipeline lemmas -/

theorem mem_ite_filter {α : Type} (p : α → Bool) (c : Prop) [Decidable c]
    (l : List α) (v : α) (h : v ∈ (if c then l.filter p else l)) : v ∈ l := by
  split at h
  · exact List.mem_of_mem_filter h
  · exact h

theorem mem_vkAfterMinLength (mf : ModelField) (v : Validator)
    (h : v ∈ vkAfterMinLength mf) : v ∈ vkAfterMaxLength mf := by
  simp only [vkAfterMinLength] at h
  exact mem_ite_filter _ _ _ _ h

theorem mem_vkAfterMaxValue (mf : ModelField) (v : Validator)
    (h : v ∈ vkAfterMaxValue mf) : v ∈ vkAfterMaxLength mf := by
  simp only [vkAfterMaxValue] at h
  exact mem_vkAfterMinLength mf v (mem_ite_filter _ _ _ _ h)

theorem mem_vkAfterMinValue (mf : ModelField) (v : Validator)
    (h : v ∈ vkAfterMinValue mf) : v ∈ vkAfterMaxLength mf := by
  simp only [vkAfterMinValue] at h
  exact mem_vkAfterMaxValue mf v (mem_ite_filter _ _ _ _ h)

theorem mem_vkAfterTypeSuppression (mf : ModelField) (v : Validator)
    (h : v ∈ vkAfterTypeSuppression mf) : v ∈ vkAfterMaxLength mf := by
  simp only [vkAfterTypeSuppression] at h
  exact mem_vkAfterMinValue mf v
    (mem_ite_filter _ _ _ _ (mem_ite_filter _ _ _ _ (mem_ite_filter _ _ _ _ h)))

/-- When `max_length` is present on a `CharField`-like field, every
validator surviving the pipeline is not a `MaxLengthValidator`. -/
theorem finalValidators_no_maxLength (mf : ModelField)
    (h1 : mf.max_length.isSome = true) (h2 : isCharField mf.fieldClass = true) :
    ∀ v ∈ finalValidators mf, v.isMaxLength = false := by
  have base : ∀ w ∈ vkAfterMaxLength mf, w.isMaxLength = false := by
    intro w hw
    simp only [vkAfterMaxLength, h1, h2, Bool.and_self, if_true] at hw
    have := List.of_mem_filter hw
    simpa using this
  intro v hv
  simp only [finalValidators] at hv
  split at hv
  · rcases List.mem_append.mp hv with h | h
    · exact base v (mem_vkAfterTypeSuppression mf v h)
    · simp only [List.mem_singleton] at h
      subst h
      rfl
  · exact base v (mem_vkAfterTypeSuppression mf v hv)

/-! ### Key characterizations of get_field_kwargs -/

theorem gfk_choices_char (field_name : String) (mf : ModelField) :
    kwGet? (get_field_kwargs field_name mf) "choices" =
      if (isAutoField mf.fieldClass || !mf.editable) = false ∧
          mf.flatchoices ≠ []
      then some (KValue.choices mf.flatchoices) else none := by
  by_cases hro : (isAutoField mf.fieldClass || !mf.editable) = true
  · simp [get_field_kwargs, hro]
  · have hro' : (isAutoField mf.fieldClass || !mf.editable) = false := by
      simpa using hro
    by_cases hch : mf.flatchoices = [] <;>
      simp [get_field_kwargs, hro', hch]

theorem gfk_max_length_char (field_name : String) (mf : ModelField) :
    kwGet? (get_field_kwargs field_name mf) "max_length" =
      if (isAutoField mf.fieldClass || !mf.editable) = false ∧
          mf.flatchoices = [] ∧
          (mf.max_length.isSome && isCharField mf.fieldClass) = true
      then some (KValue.i (mf.max_length.getD 0)) else none := by
  by_cases hro : (isAutoField mf.fieldClass || !mf.editable) = true
  · simp [get_field_kwargs, hro]
  · have hro' : (isAutoField mf.fieldClass || !mf.editable) = false := by
      simpa using hro
    by_cases hch : mf.flatchoices = [] <;>
      simp [get_field_kwargs, hro', hch]

theorem gfk_min_length_char (field_name : String) (mf : ModelField) :
    kwGet? (get_field_kwargs field_name mf) "min_length" =
      if (isAutoField mf.fieldClass || !mf.editable) = false ∧
          mf.flatchoices = []
      then (minLengthArg mf).map KValue.i else none := by
  by_cases hro : (isAutoField mf.fieldClass || !mf.editable) = true
  · simp [get_field_kwargs, hro]
  · have hro' : (isAutoField mf.fieldClass || !mf.editable) = false := by
      simpa using hro
    by_cases hch : mf.flatchoices = []
    · simp only [get_field_kwargs, hro', hch]
      simp [kwGet?_setOptInt_self, kwGet?_setOptInt_ne]
    · simp [get_field_kwargs, hro', hch]

theorem gfk_max_value_char (field_name : String) (mf : ModelField) :
    kwGet? (get_field_kwargs field_name mf) "max_value" =
      if (isAutoField mf.fieldClass || !mf.editable) = false ∧
          mf.flatchoices = []
      then (maxValueArg mf).map KValue.i else none := by
  by_cases hro : (isAutoField mf.fieldClass || !mf.editable) = true
  · simp [get_field_kwargs, hro]
  · have hro' : (isAutoField mf.fieldClass || !mf.editable) = false := by
      simpa using hro
    by_cases hch : mf.flatchoices = []
    · simp only [get_field_kwargs, hro', hch]
      simp [kwGet?_setOptInt_self, kwGet?_setOptInt_ne]
    · simp [get_field_kwargs, hro', hch]

theorem gfk_min_value_char (field_name : String) (mf : ModelField) :
    kwGet? (get_field_kwargs field_name mf) "min_value" =
      if (isAutoField mf.fieldClass || !mf.editable) = false ∧
          mf.flatchoices = []
      then (minValueArg mf).map KValue.i else none := by
  by_cases hro : (isAutoField mf.fieldClass || !mf.editable) = true
  · simp [get_field_kwargs, hro]
  · have hro' : (isAutoField mf.fieldClass || !mf.editable) = false := by
      simpa using hro
    by_cases hch : mf.flatchoices = []
    · simp only [get_field_kwargs, hro', hch]
      simp [kwGet?_setOptInt_self, kwGet?_setOptInt_ne]
    · simp [get_field_kwargs, hro', hch]

theorem gfk_validators_char (field_name : String) (mf : ModelField) :
    kwGet? (get_field_kwargs field_name mf) "validators" =
      if (isAutoField mf.fieldClass || !mf.editable) = false ∧
          mf.flatchoices = [] ∧ finalValidators mf ≠ []
      then some (KValue.vals (finalValidators mf)) else none := by
  by_cases hro : (isAutoField mf.fieldClass || !mf.editable) = true
  · simp [get_field_kwargs, hro]
  · have hro' : (isAutoField mf.fieldClass || !mf.editable) = false := by
      simpa using hro
    by_cases hch : mf.flatchoices = []
    · by_cases hfv : finalValidators mf = [] <;>
        simp [get_field_kwargs, hro', hch, hfv]
    · simp [get_field_kwargs, hro', hch]

/-! ## Claim theorems -/

/-- Claim C1 counterexample: a non-editable model field with help text.
`get_field_kwargs` sets `help_text` before the read-only early return, so
the resulting mapping does not contain only `read_only` and
`model_field`. -/
theorem get_field_kwargs_read_only_extra_key_cex :
    (let mf : ModelField :=
      { fieldClass := FieldClass.otherField, verbose_name := "",
        help_text := "An explanation", max_digits := none,
        decimal_places := none, editable := false, has_default := false,
        blank := false, null := false, flatchoices := [], max_length := none,
        validators := [], unique := false, model := "m" }
     mf.editable = false ∧
     kwGet? (get_field_kwargs "my_field" mf) "help_text" =
       some (KValue.s "An explanation")) := by
  decide

/-- Claim C1 (amended): for a non-editable field or an `AutoField`,
`get_field_kwargs` returns a mapping with `read_only` mapped to `True`
and `model_field` present, containing no key other than `model_field`,
`label`, `help_text`, `max_digits`, `decimal_places`, `style` and
`read_only`; in particular none of the post-return keys (`required`,
`allow_null`, `allow_blank`, `choices`, `max_length`, `min_length`,
`max_value`, `min_value`, `validators`) ever appears.  The presentation
keys set before the early return (label, help text, decimal attributes,
textarea style) may still appear, contrary to the claim as stated. -/
theorem get_field_kwargs_read_only_shape (field_name : String)
    (mf : ModelField)
    (h : isAutoField mf.fieldClass = true ∨ mf.editable = false) :
    kwGet? (get_field_kwargs field_name mf) "read_only" =
      some (KValue.b true) ∧
    kwGet? (get_field_kwargs field_name mf) "model_field" =
      some (KValue.modelField mf) ∧
    ∀ k, kwContains (get_field_kwargs field_name mf) k = true →
      k = "model_field" ∨ k = "label" ∨ k = "help_text" ∨
      k = "max_digits" ∨ k = "decimal_places" ∨ k = "style" ∨
      k = "read_only" := by
  have houter : (isAutoField mf.fieldClass || !mf.editable) = true := by
    rcases h with h | h <;> simp [h]
  refine ⟨?_, ?_, ?_⟩
  · simp [get_field_kwargs, houter]
  · simp [get_field_kwargs, houter]
  · intro k hk
    simp only [get_field_kwargs, houter, if_true] at hk
    rcases kwContains_set_elim _ _ _ _ hk with rfl | hk
    · simp
    rcases kwContains_setIf_elim _ _ _ _ _ hk with rfl | hk
    · simp
    rcases kwContains_setOptInt_elim _ _ _ _ hk with rfl | hk
    · simp
    rcases kwContains_setOptInt_elim _ _ _ _ hk with rfl | hk
    · simp
    rcases kwContains_setIf_elim _ _ _ _ _ hk with rfl | hk
    · simp
    rcases kwContains_setIf_elim _ _ _ _ _ hk with rfl | hk
    · simp
    rcases kwContains_set_elim _ _ _ _ hk with rfl | hk
    · simp
    simp [kwContains] at hk

/-- Claim C1 witness: a concrete non-editable field. -/
theorem get_field_kwargs_read_only_shape_witness :
    kwGet? (get_field_kwargs "my_field"
      { sampleField with editable := false }) "read_only" =
      some (KValue.b true) :=
  (get_field_kwargs_read_only_shape "my_field"
    { sampleField with editable := false } (Or.inr rfl)).1

/-- Claim C2: `get_field_kwargs` never returns `choices` together with any
of `max_length`, `min_length`, `max_value`, `min_value` or `validators`;
and for an editable non-`AutoField` field with non-empty `flatchoices` the
result does contain `choices` (so, by the first part, none of those
keys). -/
theorem get_field_kwargs_choices_exclusive (field_name : String)
    (mf : ModelField) :
    (kwContains (get_field_kwargs field_name mf) "choices" = true →
      kwContains (get_field_kwargs field_name mf) "max_length" = false ∧
      kwContains (get_field_kwargs field_name mf) "min_length" = false ∧
      kwContains (get_field_kwargs field_name mf) "max_value" = false ∧
      kwContains (get_field_kwargs field_name mf) "min_value" = false ∧
      kwContains (get_field_kwargs field_name mf) "validators" = false) ∧
    (mf.flatchoices ≠ [] → mf.editable = true →
      isAutoField mf.fieldClass = false →
      kwGet? (get_field_kwargs field_name mf) "choices" =
        some (KValue.choices mf.flatchoices)) := by
  constructor
  · intro hc
    simp only [kwContains, gfk_choices_char] at hc
    split at hc
    case isTrue hcond =>
      obtain ⟨h1, h2⟩ := hcond
      refine ⟨?_, ?_, ?_, ?_, ?_⟩ <;>
        simp [kwContains, gfk_max_length_char, gfk_min_length_char,
          gfk_max_value_char, gfk_min_value_char, gfk_validators_char, h2]
    case isFalse => simp at hc
  · intro h1 h2 h3
    rw [gfk_choices_char, if_pos ⟨by simp [h2, h3], h1⟩]

/-- Claim C2 witness: an editable field with one choice pair. -/
theorem get_field_kwargs_choices_exclusive_witness :
    (kwContains (get_field_kwargs "f"
        { sampleField with flatchoices := [("a", "A")] }) "max_length" =
          false ∧
      kwContains (get_field_kwargs "f"
        { sampleField with flatchoices := [("a", "A")] }) "min_length" =
          false ∧
      kwContains (get_field_kwargs "f"
        { sampleField with flatchoices := [("a", "A")] }) "max_value" =
          false ∧
      kwContains (get_field_kwargs "f"
        { sampleField with flatchoices := [("a", "A")] }) "min_value" =
          false ∧
      kwContains (get_field_kwargs "f"
        { sampleField with flatchoices := [("a", "A")] }) "validators" =
          false) ∧
    kwGet? (get_field_kwargs "f"
        { sampleField with flatchoices := [("a", "A")] }) "choices" =
      some (KValue.choices [("a", "A")]) :=
  ⟨(get_field_kwargs_choices_exclusive "f"
      { sampleField with flatchoices := [("a", "A")] }).1 (by decide),
   (get_field_kwargs_choices_exclusive "f"
      { sampleField with flatchoices := [("a", "A")] }).2
      (by decide) rfl rfl⟩

/-- Claim C3: for an editable `CharField` with `max_length = 50`, empty
`flatchoices` and not an `AutoField`, `get_field_kwargs` maps `max_length`
to 50 and no `MaxLengthValidator` survives into the `validators` entry. -/
theorem get_field_kwargs_char_max_length (field_name : String)
    (mf : ModelField) (hchar : isCharField mf.fieldClass = true)
    (hml : mf.max_length = some 50) (hch : mf.flatchoices = [])
    (he : mf.editable = true) (hauto : isAutoField mf.fieldClass = false) :
    kwGet? (get_field_kwargs field_name mf) "max_length" =
      some (KValue.i 50) ∧
    ∀ vs, kwGet? (get_field_kwargs field_name mf) "validators" =
        some (KValue.vals vs) → ∀ v ∈ vs, v.isMaxLength = false := by
  constructor
  · rw [gfk_max_length_char,
      if_pos ⟨by simp [hauto, he], hch, by simp [hml, hchar]⟩]
    simp [hml]
  · intro vs hvs v hv
    rw [gfk_validators_char] at hvs
    split at hvs
    · have hfv : finalValidators mf = vs := by simpa using hvs
      exact finalValidators_no_maxLength mf (by simp [hml]) hchar v
        (hfv ▸ hv)
    · exact absurd hvs (by simp)

/-- Claim C3 witness: a concrete `CharField` with `max_length = 50` whose
validator list contains a `MaxLengthValidator`. -/
theorem get_field_kwargs_char_max_length_witness :
    kwGet? (get_field_kwargs "name"
      { sampleField with
          fieldClass := FieldClass.charField
          max_length := some 50
          validators := [Validator.maxLength 50, Validator.other 7] })
      "max_length" = some (KValue.i 50) :=
  (get_field_kwargs_char_max_length "name"
    { sampleField with
        fieldClass := FieldClass.charField
        max_length := some 50
        validators := [Validator.maxLength 50, Validator.other 7] }
    rfl rfl rfl rfl rfl).1

/-- Claim C10: for an editable, non-`AutoField`, non-choice field, the
`validators` key is present exactly when the validator list remaining after
extraction, suppression and uniqueness injection is non-empty, and an empty
list is never stored under `validators`. -/
theorem get_field_kwargs_validators_iff (field_name : String)
    (mf : ModelField) (he : mf.editable = true)
    (hauto : isAutoField mf.fieldClass = false)
    (hch : mf.flatchoices = []) :
    (kwContains (get_field_kwargs field_name mf) "validators" = true ↔
      finalValidators mf ≠ []) ∧
    ∀ vs, kwGet? (get_field_kwargs field_name mf) "validators" =
        some (KValue.vals vs) → vs ≠ [] := by
  have hro' : (isAutoField mf.fieldClass || !mf.editable) = false := by
    simp [hauto, he]
  constructor
  · by_cases hfv : finalValidators mf = [] <;>
      simp [kwContains, gfk_validators_char, hro', hch, hfv]
  · intro vs hvs
    rw [gfk_validators_char] at hvs
    split at hvs
    case isTrue hcond =>
      have hfv : finalValidators mf = vs := by simpa using hvs
      exact hfv ▸ hcond.2.2
    case isFalse => exact absurd hvs (by simp)

/-- Claim C10 witness: a field with one untouched validator has the
`validators` key; the key maps to a non-empty list. -/
theorem get_field_kwargs_validators_iff_witness :
    (kwContains (get_field_kwargs "f"
        { sampleField with validators := [Validator.other 3] })
        "validators" = true ↔
      finalValidators
        { sampleField with validators := [Validator.other 3] } ≠ []) ∧
    ∀ vs, kwGet? (get_field_kwargs "f"
        { sampleField with validators := [Validator.other 3] })
        "validators" = some (KValue.vals vs) → vs ≠ [] :=
  get_field_kwargs_validators_iff "f"
    { sampleField with validators := [Validator.other 3] } rfl rfl rfl

/-- Claim C4: `get_field_kwargs` includes the `label` key exactly when the
verbose name is non-empty and its capfirst-ed form differs from the default
label derived from the field name (underscores to spaces, capitalized), and
then it maps to the capfirst-ed verbose name. -/
theorem get_field_kwargs_label_characterization (field_name : String)
    (mf : ModelField) :
    kwGet? (get_field_kwargs field_name mf) "label" =
      (if mf.verbose_name ≠ "" ∧
          capfirst mf.verbose_name ≠
            pyCapitalize (pyReplaceChar field_name '_' ' ')
       then some (KValue.s (capfirst mf.verbose_name)) else none) := by
  simp only [get_field_kwargs]
  split
  · simp [needs_label, bne_iff_ne, and_assoc]
  · split
    · simp [needs_label, bne_iff_ne, and_assoc]
    · simp [needs_label, bne_iff_ne, and_assoc]

/-- Claim C8: for an editable `NullBooleanField` with `null=True` (not an
`AutoField`), `get_field_kwargs` sets `required` to `False` but never adds
`allow_null`, because the `allow_null` branch excludes
`NullBooleanField`. -/
theorem get_field_kwargs_null_boolean_allow_null (field_name : String)
    (mf : ModelField) (hnb : mf.fieldClass = FieldClass.nullBooleanField)
    (hnull : mf.null = true) (he : mf.editable = true) :
    kwGet? (get_field_kwargs field_name mf) "required" =
      some (KValue.b false) ∧
    kwGet? (get_field_kwargs field_name mf) "allow_null" = none := by
  have h1 : isAutoField mf.fieldClass = false := by rw [hnb]; rfl
  have h2 : isNullBooleanField mf.fieldClass = true := by rw [hnb]; rfl
  constructor <;>
    (simp only [get_field_kwargs, h1, h2, he, hnull]
     split
     · simp_all
     · split <;> simp)

/-- Claim C8 witness: a concrete editable `NullBooleanField` with
`null=True`. -/
theorem get_field_kwargs_null_boolean_allow_null_witness :
    kwGet? (get_field_kwargs "flag"
      { fieldClass := FieldClass.nullBooleanField, verbose_name := "",
        help_text := "", max_digits := none, decimal_places := none,
        editable := true, has_default := false, blank := false, null := true,
        flatchoices := [], max_length := none, validators := [],
        unique := false, model := "m" }) "required" = some (KValue.b false) ∧
    kwGet? (get_field_kwargs "flag"
      { fieldClass := FieldClass.nullBooleanField, verbose_name := "",
        help_text := "", max_digits := none, decimal_places := none,
        editable := true, has_default := false, blank := false, null := true,
        flatchoices := [], max_length := none, validators := [],
        unique := false, model := "m" }) "allow_null" = none :=
  get_field_kwargs_null_boolean_allow_null "flag" _ rfl rfl rfl

/-! ### ClassLookupDict lemmas and claims C5, C6, C7, C9 -/

theorem mroLoop_err {V : Type} (mapping : List (String × V)) :
    ∀ (l : List String) (acc : String),
      (∀ c ∈ l, mapping.lookup c = none) →
      ∃ n, mroLoop mapping l (some acc) =
        Except.error (LookupError.keyError "Class %s not found in lookup." n)
  | [], acc, _ => ⟨acc, rfl⟩
  | c :: rest, acc, h => by
      have hc : mapping.lookup c = none := h c (List.mem_cons_self c rest)
      have hrest := mroLoop_err mapping rest c
        (fun x hx => h x (List.mem_cons_of_mem _ hx))
      simpa [mroLoop, hc] using hrest

theorem mroLoop_find {V : Type} (mapping : List (String × V)) :
    ∀ (l : List String) (acc : Option String) (c : String) (v : V),
      l.find? (fun x => (mapping.lookup x).isSome) = some c →
      mapping.lookup c = some v →
      mroLoop mapping l acc = Except.ok v := by
  intro l
  induction l with
  | nil => intro acc c v hfind; simp [List.find?] at hfind
  | cons a rest ih =>
      intro acc c v hfind hlook
      by_cases ha : (mapping.lookup a).isSome = true
      · have hca : c = a := by
          simp only [List.find?_cons, ha, cond_true] at hfind
          exact (Option.some_injective _ hfind).symm
        subst hca
        simp [mroLoop, hlook]
      · have ha' : mapping.lookup a = none := by
          cases hh : mapping.lookup a
          · rfl
          · simp [hh] at ha
        simp only [List.find?_cons, ha, cond_false] at hfind
        simp only [mroLoop, ha']
        exact ih (some a) c v hfind hlook

/-- Claim C5: `ClassLookupDict.__getitem__` walks the MRO of the runtime
class (or of the declared `_proxy_class`): when no class of the MRO is
registered in the mapping it raises `KeyError`, otherwise it returns the
value registered for the first class of the MRO that is in the mapping. -/
theorem classLookupGetitem_mro_spec {V : Type} (mapping : List (String × V))
    (key : LookupKey) :
    ((key.proxy_class.getD key.cls).mro ≠ [] →
      (∀ c ∈ (key.proxy_class.getD key.cls).mro, mapping.lookup c = none) →
      ∃ n, classLookupGetitem mapping key =
        Except.error
          (LookupError.keyError "Class %s not found in lookup." n)) ∧
    (∀ c v,
      (key.proxy_class.getD key.cls).mro.find?
          (fun x => (mapping.lookup x).isSome) = some c →
      mapping.lookup c = some v →
      classLookupGetitem mapping key = Except.ok v) := by
  constructor
  · intro hne hnone
    rcases hmro : (key.proxy_class.getD key.cls).mro with _ | ⟨c, rest⟩
    · exact absurd hmro hne
    · have hc : mapping.lookup c = none := by
        refine hnone c ?_
        rw [hmro]
        exact List.mem_cons_self c rest
      have hrest := mroLoop_err mapping rest c
        (fun x hx => hnone x (by rw [hmro]; exact List.mem_cons_of_mem _ hx))
      simp only [classLookupGetitem, hmro]
      simpa [mroLoop, hc] using hrest
  · intro c v hfind hlook
    simp only [classLookupGetitem]
    exact mroLoop_find mapping _ none c v hfind hlook

/-- Claim C5 witness: with only class `B` registered, lookup through an
unrelated MRO raises `KeyError` and lookup through an MRO containing `B`
returns the value registered for `B`. -/
theorem classLookupGetitem_mro_spec_witness :
    (∃ n, classLookupGetitem [("B", "vB")]
        { cls := { name := "C", mro := ["C", "Z"] }, proxy_class := none } =
      Except.error
        (LookupError.keyError "Class %s not found in lookup." n)) ∧
    classLookupGetitem [("B", "vB")]
        { cls := { name := "C", mro := ["C", "B", "A"] },
          proxy_class := none } =
      Except.ok "vB" :=
  ⟨(classLookupGetitem_mro_spec [("B", "vB")]
      { cls := { name := "C", mro := ["C", "Z"] }, proxy_class := none }).1
      (by decide) (by decide),
   (classLookupGetitem_mro_spec [("B", "vB")]
      { cls := { name := "C", mro := ["C", "B", "A"] },
        proxy_class := none }).2 "B" "vB" (by decide) (by decide)⟩

/-- Claim C6 counterexample: two models differing only in their app label
get the same detail view name, and the name never mentions the app label:
the format string references only the lowercased object name, so the
routing name is not formatted from the namespace. -/
theorem get_detail_view_name_app_label_unused_cex :
    get_detail_view_name
      { app_label := "alpha", object_name := "Widget",
        default_manager := "m1" } = "widget-detail" ∧
    get_detail_view_name
      { app_label := "beta", object_name := "Widget",
        default_manager := "m2" } = "widget-detail" ∧
    ("alpha" : String) ≠ "beta" := by
  refine ⟨rfl, rfl, by decide⟩

/-- Claim C6 (amended): `get_detail_view_name` deterministically returns
the lowercased type name followed by `-detail`; the app label is supplied
to the format mapping but unused by the format string, and the derivation
is total (no error paths). -/
theorem get_detail_view_name_formula (model : DjangoModel) :
    get_detail_view_name model = pyLower model.object_name ++ "-detail" :=
  rfl

/-- Claim C7: `get_relation_kwargs` short-circuits to read-only when a
through-model is present or the underlying field is non-editable: the
result maps `read_only` to `True`, drops `queryset`, and (when a model
field is present) adds none of `required`, `allow_null`, `validators`. -/
theorem get_relation_kwargs_read_only_shortcircuit (cmh : String → String)
    (field_name : String) (ri : RelationInfo)
    (h : ri.has_through_model = true ∨
      ∃ mf, ri.model_field = some mf ∧ mf.editable = false) :
    kwGet? (get_relation_kwargs cmh field_name ri) "read_only" =
      some (KValue.b true) ∧
    kwGet? (get_relation_kwargs cmh field_name ri) "queryset" = none ∧
    ∀ mf, ri.model_field = some mf →
      kwGet? (get_relation_kwargs cmh field_name ri) "required" = none ∧
      kwGet? (get_relation_kwargs cmh field_name ri) "allow_null" = none ∧
      kwGet? (get_relation_kwargs cmh field_name ri) "validators" = none := by
  obtain ⟨mfo, rm, tm, htm⟩ := ri
  cases mfo with
  | none =>
      have hthru : htm = true := by
        rcases h with h | ⟨mf, hmf, -⟩
        · exact h
        · exact absurd hmf (by simp)
      subst hthru
      refine ⟨?_, ?_, ?_⟩
      · simp [get_relation_kwargs, kvTruthy]
      · simp [get_relation_kwargs, kvTruthy]
      · intro mf hmf
        exact absurd hmf (by simp)
  | some mf =>
      by_cases hthru : htm = true
      · subst hthru
        refine ⟨?_, ?_, ?_⟩
        · by_cases hed : mf.editable = true <;>
            simp [get_relation_kwargs, kvTruthy, hed]
        · by_cases hed : mf.editable = true <;>
            simp [get_relation_kwargs, kvTruthy, hed]
        · intro mf' hmf'
          obtain rfl : mf = mf' := by simpa using hmf'
          refine ⟨?_, ?_, ?_⟩ <;>
            (by_cases hed : mf.editable = true <;>
              simp [get_relation_kwargs, kvTruthy, hed])
      · have hthru' : htm = false := by simpa using hthru
        subst hthru'
        have hed : mf.editable = false := by
          rcases h with h | ⟨mf', hmf', hed'⟩
          · exact absurd h (by simp)
          · obtain rfl : mf = mf' := by simpa using hmf'
            exact hed'
        refine ⟨?_, ?_, ?_⟩
        · simp [get_relation_kwargs, kvTruthy, hed]
        · simp [get_relation_kwargs, kvTruthy, hed]
        · intro mf' hmf'
          obtain rfl : mf = mf' := by simpa using hmf'
          refine ⟨?_, ?_, ?_⟩ <;> simp [get_relation_kwargs, kvTruthy, hed]

/-- Claim C7 witness: a relation whose underlying field is non-editable. -/
theorem get_relation_kwargs_read_only_shortcircuit_witness :
    kwGet? (get_relation_kwargs id "rel"
      { model_field := some { sampleField with editable := false },
        related_model := sampleModel, to_many := false,
        has_through_model := false }) "read_only" = some (KValue.b true) ∧
    kwGet? (get_relation_kwargs id "rel"
      { model_field := some { sampleField with editable := false },
        related_model := sampleModel, to_many := false,
        has_through_model := false }) "required" = none :=
  ⟨(get_relation_kwargs_read_only_shortcircuit id "rel"
      { model_field := some { sampleField with editable := false },
        related_model := sampleModel, to_many := false,
        has_through_model := false }
      (Or.inr ⟨{ sampleField with editable := false }, rfl, rfl⟩)).1,
   ((get_relation_kwargs_read_only_shortcircuit id "rel"
      { model_field := some { sampleField with editable := false },
        related_model := sampleModel, to_many := false,
        has_through_model := false }
      (Or.inr ⟨{ sampleField with editable := false }, rfl, rfl⟩)).2.2
      { sampleField with editable := false } rfl).1⟩

/-- Claim C9: every `get_relation_kwargs` result contains `view_name`, and
never both `queryset` and `read_only` (whenever `read_only` is set the
`queryset` key has been removed). -/
theorem get_relation_kwargs_view_name_invariant (cmh : String → String)
    (field_name : String) (ri : RelationInfo) :
    kwContains (get_relation_kwargs cmh field_name ri) "view_name" = true ∧
    ¬(kwContains (get_relation_kwargs cmh field_name ri) "queryset" = true ∧
      kwContains (get_relation_kwargs cmh field_name ri) "read_only" =
        true) := by
  obtain ⟨mfo, rm, tm, htm⟩ := ri
  cases mfo with
  | none =>
      cases htm <;> simp [get_relation_kwargs, kwContains, kvTruthy]
  | some mf =>
      cases htm <;> by_cases hed : mf.editable = true <;>
        cases hun : mf.unique <;>
          simp [get_relation_kwargs, kwContains, kvTruthy, hed, hun]

end FieldMapping
